import Mathlib

/-!
Verification development for the ALS.com Arc'teryx monitor
(src/monitor_als_arcteryx.py).  The Python program is shallowly embedded:

* JSON/Python values that flow through the snapshot file and the diff are
  modelled by the inductive type `J`; Python `float` values are modelled by
  exact rationals (`ℚ`), with the `math.nan` sentinel as a dedicated
  constructor `J.nanLit` (Python's `json` module serialises it as the `NaN`
  literal and parses it back, so it is representable in the file and distinct
  from the number `0`).
* a product-variant record (the dict built by `parse_product_detail` and
  stored in the snapshot) is the structure `Record`;
* a snapshot (a Python dict mapping key → record) is an association list
  `Snap` whose well-formedness (`SnapWF`) states that keys are unique, as
  they are in a Python dict;
* the file system is a map from paths to optional `FileContent`; the
  external `json` library's text layer is abstracted: a file either holds a
  document that parses to a `J` value (`FileContent.good`) or is
  unreadable/unparseable (`FileContent.bad`).
-/

/-- A JSON-like Python value: the values that can appear in the snapshot
file and inside records.  `nanLit` is Python's `float('nan')`, which
`json.dump` writes as the (non-standard) `NaN` literal and `json.loads`
parses back. -/
inductive J where
  | null : J
  | bool : Bool → J
  | num : ℚ → J
  | nanLit : J
  | str : String → J
  | arr : List J → J
  | obj : List (String × J) → J

/-- Python truthiness (`bool(v)`) of a `J` value.  Note `float('nan')` is
truthy in Python. -/
def pyTruthy : J → Bool
  | .null => false
  | .bool b => b
  | .num q => decide (q ≠ 0)
  | .nanLit => true
  | .str s => decide (s ≠ "")
  | .arr l => !l.isEmpty
  | .obj l => !l.isEmpty

/-- Python `s.strip()`: leading and trailing whitespace removed. -/
def pyStrip (s : String) : String :=
  ⟨(((s.data.dropWhile Char.isWhitespace).reverse.dropWhile
      Char.isWhitespace).reverse)⟩

/-- Value of a list of decimal digit characters (most significant first). -/
def digitsNat (cs : List Char) : ℕ :=
  cs.foldl (fun a c => a * 10 + (c.toNat - 48)) 0

/-- Truncation of a rational toward zero, as Python's `int(float)` does. -/
def ratTrunc (q : ℚ) : ℤ :=
  if 0 ≤ q then ⌊q⌋ else ⌈q⌉

/-- Parses a (sign-free) decimal chunk: digits with an optional single
decimal point, at least one digit overall.  Used to model Python's
`float(str)` on the plain decimal literals exercised here (exponent,
`inf`/`nan` and underscore forms are outside the fragment used by the
program's `Retry-After` handling). -/
def decVal (cs : List Char) : Option ℚ :=
  let ip := cs.takeWhile Char.isDigit
  let rest := cs.dropWhile Char.isDigit
  match rest with
  | [] => if ip.isEmpty then none else some (digitsNat ip : ℚ)
  | '.' :: fp =>
      if fp.all Char.isDigit && (!ip.isEmpty || !fp.isEmpty) then
        some ((digitsNat ip : ℚ) + (digitsNat fp : ℚ) / (10 : ℚ) ^ fp.length)
      else none
  | _ => none

/-- Python `float(s)` on a string (decimal fragment; `none` = `ValueError`). -/
def pyFloat (s : String) : Option ℚ :=
  match (pyStrip s).data with
  | '-' :: rest => (decVal rest).map (fun q => -q)
  | '+' :: rest => decVal rest
  | l => decVal l

/-- Python `int(s)` on a string (optional sign and decimal digits;
`none` = `ValueError`). -/
def pyIntOfStr (s : String) : Option ℤ :=
  match (pyStrip s).data with
  | [] => none
  | '-' :: rest =>
      if rest.isEmpty || !rest.all Char.isDigit then none
      else some (-(digitsNat rest : ℤ))
  | '+' :: rest =>
      if rest.isEmpty || !rest.all Char.isDigit then none
      else some ((digitsNat rest : ℤ))
  | l => if l.all Char.isDigit then some ((digitsNat l : ℤ)) else none

/-- Python `int(v)` on a `J` value; `none` means the call raises.
`int` truncates floats toward zero, converts booleans to 0/1, parses
integer strings, and raises on `None`, `nan`, non-integer strings,
lists and dicts. -/
def pyInt : J → Option ℤ
  | .num q => if q.den = 1 then some q.num else some (ratTrunc q)
  | .bool b => some (if b then 1 else 0)
  | .str s => pyIntOfStr s
  | .nanLit => none
  | .null => none
  | .arr _ => none
  | .obj _ => none

/-- Python `isinstance(v, (int, float))`.  Booleans are `int` instances. -/
def isPyNumber : J → Bool
  | .num _ => true
  | .nanLit => true
  | .bool _ => true
  | _ => false

/-- Python `math.isnan(v)` for values passing the `isinstance` check. -/
def isPyNan : J → Bool
  | .nanLit => true
  | _ => false

/-- Numeric value of a `J` number (booleans count as 0/1, as in Python
arithmetic). -/
def numVal : J → ℚ
  | .num q => q
  | .bool b => if b then 1 else 0
  | _ => 0

/-- A product-variant record: the dict built by `parse_product_detail`
(fields `title`, `sku`, `color`, `currency`, `price`, `sizes`, `in_stock`)
together with the fields `url`, `last_seen`, `key` added in
`scrape_all_products`, and the optional `note` of the parse-failed
placeholder.  `price` is an arbitrary `J` value (a number, or the `nan`
sentinel); `sizes` maps size labels to quantity values. -/
structure Record where
  title : String
  sku : String
  color : String
  currency : String
  price : J
  sizes : List (String × J)
  in_stock : Bool
  url : String
  last_seen : String
  key : String
  note : Option String

/-- A snapshot: Python dict mapping variant key → record. -/
abbrev Snap : Type := List (String × Record)

/-- Well-formedness of a snapshot as the embedding of a Python dict:
top-level keys are unique, and each record's `sizes` dict has unique
size labels. -/
def SnapWF (s : Snap) : Prop :=
  (s.map Prod.fst).Nodup ∧ ∀ p ∈ s, ((p.2.sizes.map Prod.fst).Nodup)

instance : DecidablePred SnapWF := fun _ =>
  instDecidableAnd

/-- The distinct keys of a snapshot (Python `set(d.keys())`). -/
def snapKeys (s : Snap) : List String :=
  (s.map Prod.fst).dedup

/-- Dict lookup `d[k]` / `d.get(k)` on a snapshot. -/
def snapGet (s : Snap) (k : String) : Option Record :=
  (s.find? (fun p => p.1 == k)).map Prod.snd

/-- Lookup in a `sizes` dict, `none` when the label is absent. -/
def sizesLookup (l : List (String × J)) (k : String) : Option J :=
  (l.find? (fun p => p.1 == k)).map Prod.snd

/-- `sizes.get(label, 0)`: lookup with Python default `0`. -/
def sizesGet (l : List (String × J)) (k : String) : J :=
  (sizesLookup l k).getD (J.num 0)

/-- The JSON document `json.dump` produces for one record (the record dict
serialised field by field; the optional `note` key is present only on
parse-failed placeholders). -/
def encodeRecord (r : Record) : J :=
  J.obj ([("title", J.str r.title), ("sku", J.str r.sku),
          ("color", J.str r.color), ("currency", J.str r.currency),
          ("price", r.price), ("sizes", J.obj r.sizes),
          ("in_stock", J.bool r.in_stock), ("url", J.str r.url),
          ("last_seen", J.str r.last_seen), ("key", J.str r.key)] ++
         (match r.note with
          | some s => [("note", J.str s)]
          | none => []))

/-- Lookup of a field in a JSON object. -/
def jLookup (l : List (String × J)) (k : String) : Option J :=
  (l.find? (fun p => p.1 == k)).map Prod.snd

/-- Reading a record back out of its JSON document: the typing judgment of
the snapshot-file schema, inverse to `encodeRecord`. -/
def decodeRecord : J → Option Record
  | .obj l =>
    match jLookup l ("title"), jLookup l ("sku"), jLookup l ("color"),
          jLookup l ("currency"), jLookup l ("price"), jLookup l ("sizes"),
          jLookup l ("in_stock"), jLookup l ("url"), jLookup l ("last_seen"),
          jLookup l ("key") with
    | some (.str t), some (.str sk), some (.str c), some (.str cur), some p,
      some (.obj sz), some (.bool st), some (.str u), some (.str ls),
      some (.str ky) =>
        some ⟨t, sk, c, cur, p, sz, st, u, ls, ky,
              match jLookup l ("note") with
              | some (.str s) => some s
              | _ => none⟩
    | _, _, _, _, _, _, _, _, _, _ => none
  | _ => none

/-- The JSON document `json.dump` produces for a whole snapshot dict. -/
def encodeSnapshot (s : Snap) : J :=
  J.obj (s.map (fun p => (p.1, encodeRecord p.2)))

/-- Decodes the entries of a snapshot object one by one. -/
def decodeEntries : List (String × J) → Option Snap
  | [] => some []
  | (k, v) :: rest =>
    match decodeRecord v, decodeEntries rest with
    | some r, some t => some ((k, r) :: t)
    | _, _ => none

/-- Reading a snapshot back out of its JSON document. -/
def decodeSnapshot : J → Option Snap
  | .obj l => decodeEntries l
  | _ => none

/-- Content of a file on disk: either a document that parses as JSON to a
value `j`, or content that cannot be read or parsed (this also models a
freshly created, still incomplete temporary file). -/
inductive FileContent where
  | good : J → FileContent
  | bad : FileContent

/-- The file system: a map from paths to file contents (`none` = the path
does not exist). -/
def FS : Type := String → Option FileContent

/-- Writing (or deleting, with `none`) a path. -/
def fsWrite (fs : FS) (p : String) (c : Option FileContent) : FS :=
  fun q => if q = p then c else fs q

/-- Which of `jdump`'s fallible steps succeed in a given execution:
`serializeOk` is the `json.dump` call, `flushOk` covers `tmp.flush()` and
`os.fsync`, `renameOk` is the `shutil.move` over the destination. -/
structure DumpSteps where
  serializeOk : Bool
  flushOk : Bool
  renameOk : Bool

/-- One execution of `jdump(obj, path)` (src lines 51-65).  `tmp` is the
fresh name chosen by `NamedTemporaryFile(delete=False, dir=path.parent)`.
Returns the final file system and whether an exception propagated out of
`jdump`.

Step by step: the temporary file is created; `json.dump` writes the
document into it (on failure the `with` block closes the file -- which is
kept, since `delete=False` -- and the exception propagates before
`tmp_name` is ever used); `flush`/`fsync` force it to disk; then
`shutil.move(tmp_name, path)` renames it over the destination inside a
`try` whose `finally` unlinks `tmp_name`, swallowing the
`FileNotFoundError` that the unlink raises after a successful move. -/
def jdumpRun (sc : DumpSteps) (j : J) (path tmp : String) (fs : FS) :
    FS × Bool :=
  let fs1 := fsWrite fs tmp (some FileContent.bad)
  if sc.serializeOk then
    let fs2 := fsWrite fs1 tmp (some (FileContent.good j))
    if sc.flushOk then
      if sc.renameOk then
        (fsWrite (fsWrite fs2 path (some (FileContent.good j))) tmp none,
         false)
      else
        (fsWrite fs2 tmp none, true)
    else (fs2, true)
  else (fs1, true)

/-- `jload(path)` (src lines 68-78): returns `{}` when the file does not
exist, returns `{}` when reading or parsing fails (the `except` branch),
and otherwise returns the parsed document.  The function is total: no
exception escapes it. -/
def jload (path : String) (fs : FS) : J :=
  match fs path with
  | none => J.obj []
  | some FileContent.bad => J.obj []
  | some (FileContent.good j) => j

/-- Per-size decision of `compute_diff`'s stock-increase loop (src lines
492-500): `try: int(nqty) > int(oqty)` records `int(nqty)` when strictly
greater; if either `int()` call raises, the `except` branch falls back to
the 0/1 truthiness comparison `nqty and not oqty`, recording `1`.
Returns `some v` when size gets recorded with value `v`. -/
def qtyIncreaseVal (oq nq : J) : Option ℤ :=
  match pyInt nq, pyInt oq with
  | some a, some b => if b < a then some a else none
  | some _, none => if pyTruthy nq && !pyTruthy oq then some 1 else none
  | none, _ => if pyTruthy nq && !pyTruthy oq then some 1 else none

/-- The `increased` dict of `compute_diff` (src lines 489-500): iterate the
new record's sizes in order; for each size compare with
`old.sizes.get(size, 0)`. -/
def increasedSizes (osizes nsizes : List (String × J)) : List (String × ℤ) :=
  nsizes.filterMap (fun p =>
    (qtyIncreaseVal (sizesGet osizes p.1) p.2).map (fun v => (p.1, v)))

/-- The price-change test of `compute_diff` (src lines 479-481):
`isinstance(op, (int, float)) and isinstance(np, (int, float)) and not
math.isnan(op) and not math.isnan(np) and abs(op - np) >= 0.01`. -/
def priceChangedB (op np : J) : Bool :=
  isPyNumber op && isPyNumber np && !isPyNan op && !isPyNan np &&
    decide ((1 : ℚ) / 100 ≤ |numVal op - numVal np|)

/-- The result of `compute_diff`: four lists.  A `new_items` entry in
Python is `(k, None, new[k])`; the constant `None` is dropped here.  The
other entries are `(k, old[k], new[k])`, and `stock_increases` entries
additionally carry the `increased` dict. -/
structure ChangeSet where
  new_items : List (String × Record)
  price_changes : List (String × Record × Record)
  restocks : List (String × Record × Record)
  stock_increases : List (String × Record × Record × List (String × ℤ))

/-- Strict lexicographic comparison of character lists by code point:
Python's `str <`. -/
def strLtB : List Char → List Char → Bool
  | [], [] => false
  | [], _ :: _ => true
  | _ :: _, [] => false
  | a :: as, b :: bs =>
      if a.toNat < b.toNat then true
      else if b.toNat < a.toNat then false
      else strLtB as bs

/-- The `≤` order `sorted` uses on keys. -/
def strLe (a b : String) : Prop :=
  !strLtB b.data a.data = true

instance : DecidableRel strLe := fun _ _ =>
  instDecidableEqBool _ true

/-- `sorted(new_keys & old_keys)`: the shared keys in sorted order. -/
def sharedKeys (old new : Snap) : List String :=
  List.insertionSort strLe
    ((snapKeys new).filter (fun k => decide (k ∈ snapKeys old)))

/-- `sorted(new_keys - old_keys)`: the keys only in `new`, sorted. -/
def newOnlyKeys (old new : Snap) : List String :=
  List.insertionSort strLe
    ((snapKeys new).filter (fun k => decide (k ∉ snapKeys old)))

/-- `compute_diff(old, new)` (src lines 452-509).  Python iterates the
sorted shared keys once, appending to the three per-key lists; here each
list is produced by its own pass, which yields the identical lists.
Records are always present for the iterated keys, so the `_, _` match
arms are dead. -/
def computeDiff (old new : Snap) : ChangeSet where
  new_items :=
    (newOnlyKeys old new).filterMap (fun k =>
      (snapGet new k).map (fun n => (k, n)))
  price_changes :=
    (sharedKeys old new).filterMap (fun k =>
      match snapGet old k, snapGet new k with
      | some o, some n =>
          if priceChangedB o.price n.price then some (k, o, n) else none
      | _, _ => none)
  restocks :=
    (sharedKeys old new).filterMap (fun k =>
      match snapGet old k, snapGet new k with
      | some o, some n =>
          if !o.in_stock && n.in_stock then some (k, o, n) else none
      | _, _ => none)
  stock_increases :=
    (sharedKeys old new).filterMap (fun k =>
      match snapGet old k, snapGet new k with
      | some o, some n =>
          let inc := increasedSizes o.sizes n.sizes
          if inc.isEmpty then none else some (k, o, n, inc)
      | _, _ => none)

/-- Rounding to an integer, ties to even: models the rounding of Python's
fixed-point formatting (up to the binary-vs-decimal discrepancies of
`float`, which no claim exercises). -/
def roundHalfEven (r : ℚ) : ℤ :=
  if r - ⌊r⌋ < 1 / 2 then ⌊r⌋
  else if 1 / 2 < r - ⌊r⌋ then ⌊r⌋ + 1
  else if ⌊r⌋ % 2 = 0 then ⌊r⌋ else ⌊r⌋ + 1

/-- Python `f"{x:.2f}"` on the embedded rational price. -/
def fmtFixed2 (q : ℚ) : String :=
  let c := roundHalfEven (q * 100)
  let a := c.natAbs
  (if c < 0 then ("-") else ("")) ++ toString (a / 100) ++ "." ++
    (if a % 100 < 10 then ("0") else ("")) ++ toString (a % 100)

/-- Python `str(v)` as used when rendering size quantities.  Integer
quantities (the only ones the data model produces) print exactly as in
Python; the remaining cases are placeholders whose exact spelling no
claim depends on. -/
def pyStr : J → String
  | .num q => if q.den = 1 then toString q.num
              else toString q.num ++ "/" ++ toString q.den
  | .str s => s
  | .bool b => if b then ("True") else ("False")
  | .null => "None"
  | .nanLit => "nan"
  | .arr _ => "[...]"
  | .obj _ => "\x7b...\x7d"

/-- `_fmt_currency_price` (src lines 512-517). -/
def fmt_currency_price (currency : String) (price : J) : String :=
  if isPyNumber price && !isPyNan price then
    pyStrip (pyStrip currency ++ " " ++ fmtFixed2 (numVal price))
  else ("N/A")

/-- Python `v and v > 0` on a quantity value: truthiness, then the numeric
comparison.  (On a non-numeric truthy value Python's `v > 0` would raise
`TypeError`; the claims only quantify over integer quantities, where this
embedding is exact.) -/
def qtyPositive (v : J) : Bool :=
  pyTruthy v &&
    (match v with
     | .num q => decide (0 < q)
     | .bool b => b
     | _ => false)

/-- `_fmt_sizes_line` (src lines 520-533): with `only_keys`, list those
keys present in the dict; otherwise list the sizes with positive stock, at
most `limit = 8` of them (appending until the limit is reached equals
taking 8 after filtering). -/
def fmt_sizes_line (sizes : List (String × J)) (onlyKeys : Option (List String)) :
    String :=
  let items :=
    match onlyKeys with
    | some ks => ks.filterMap (fun k =>
        (sizesLookup sizes k).map (fun v => k ++ ":" ++ pyStr v))
    | none => ((sizes.filter (fun p => qtyPositive p.2)).map
        (fun p => p.1 ++ ":" ++ pyStr p.2)).take 8
  if items.isEmpty then ("无") else String.intercalate ("，") items

/-- The `block` closure of `format_discord_message` (src lines 540-553):
the six content lines plus the separating blank line for one record. -/
def blockLines (n : Record) : List String :=
  [("• 名称：") ++ (if n.title = "" then ("-") else n.title),
   ("• 货号：") ++ (if n.sku = "" then ("-") else n.sku),
   ("• 颜色：") ++ (if n.color = "" then ("-") else n.color),
   ("• 价格：") ++ fmt_currency_price n.currency n.price,
   ("🧾 库存信息：") ++ fmt_sizes_line n.sizes none,
   n.url,
   ""]

/-- The inlined block of the stock-increase section (src lines 576-589):
like `blockLines` but the sizes line is restricted to the increased
sizes. -/
def incBlockLines (n : Record) (inc : List (String × ℤ)) : List String :=
  [("• 名称：") ++ (if n.title = "" then ("-") else n.title),
   ("• 货号：") ++ (if n.sku = "" then ("-") else n.sku),
   ("• 颜色：") ++ (if n.color = "" then ("-") else n.color),
   ("• 价格：") ++ fmt_currency_price n.currency n.price,
   ("🧾 库存信息：") ++ fmt_sizes_line n.sizes (some (inc.map Prod.fst)),
   n.url,
   ""]

/-- The `lines` list accumulated by `format_discord_message` (src lines
538-589): one header plus blocks per non-empty category, each category
capped at 20 entries. -/
def linesOf (diffs : ChangeSet) : List String :=
  (if diffs.new_items.isEmpty then []
   else ("**上新（新商品/新变体）**") ::
     ((diffs.new_items.take 20).map (fun e => blockLines e.2)).flatten) ++
  (if diffs.price_changes.isEmpty then []
   else ("**价格变化**") ::
     ((diffs.price_changes.take 20).map (fun e => blockLines e.2.2)).flatten) ++
  (if diffs.restocks.isEmpty then []
   else ("**缺货 → 到货**") ::
     ((diffs.restocks.take 20).map (fun e => blockLines e.2.2)).flatten) ++
  (if diffs.stock_increases.isEmpty then []
   else ("**库存数量增加**") ::
     ((diffs.stock_increases.take 20).map
       (fun e => incBlockLines e.2.2.1 e.2.2.2)).flatten)

/-- Python `"\n".join(lines)`. -/
def joinLines : List String → String
  | [] => ""
  | [a] => a
  | a :: rest => a ++ "\n" ++ joinLines rest

/-- The webhook payload built by `format_discord_message` (src lines
593-602); the embed's `timestamp` field is the wall clock at call time and
is not part of the pure embedding. -/
structure Payload where
  content : Option String
  title : String
  description : String
  color : ℕ
  footerText : String

/-- `format_discord_message(diffs)` (src lines 536-603): the joined lines,
or the explicit no-changes message when no line was produced; the
description is truncated to 4000 characters (Python slices by code
points). -/
def format_discord_message (diffs : ChangeSet) : Payload :=
  let lines := linesOf diffs
  let content :=
    if lines.isEmpty then ("本次扫描未发现变化。") else joinLines lines
  { content := none
    title := "Al's | Arc'teryx 监控结果"
    description := String.mk (content.data.take 4000)
    color := 0x00AAFF
    footerText := "als.com 价格/上新/库存监控" }

/-- Outcome of one `urllib.request.urlopen` POST attempt: success, an
`HTTPError` with status code and optional `Retry-After` header, or any
other (network-level) exception. -/
inductive AttemptResult where
  | ok : AttemptResult
  | httpErr : ℕ → Option String → AttemptResult
  | netErr : AttemptResult

/-- `e.code in (429, 403, 502, 503)`. -/
def retryableCode (c : ℕ) : Bool :=
  c == 429 || c == 403 || c == 502 || c == 503

/-- Whether an attempt outcome is one the loop retries after. -/
def isRetryable : AttemptResult → Bool
  | .ok => false
  | .httpErr c _ => retryableCode c
  | .netErr => true

/-- `float(e.headers.get("Retry-After", "0") or 0)`: a missing header
defaults to the string `"0"`, an empty header to the number `0`; `none`
means the `float()` call raises `ValueError`. -/
def retryAfterQ (ra : Option String) : Option ℚ :=
  let s := ra.getD ("0")
  if s = "" then some 0 else pyFloat s

/-- Whether an `HTTPError` outcome, when its code is retryable, carries a
`Retry-After` value that `float()` accepts.  Non-retryable HTTP errors
qualify trivially: the `e.code in (429, 403, 502, 503)` test short-circuits
before `float()` is ever evaluated, so their `Retry-After` header is never
parsed.  Non-HTTP outcomes also qualify trivially. -/
def RAok : AttemptResult → Bool
  | .httpErr c ra => !retryableCode c || (retryAfterQ ra).isSome
  | _ => true

/-- What one iteration sleeps before retrying after attempt `i`. -/
def expectedWait (i : ℕ) : AttemptResult → ℚ
  | .netErr => (2 : ℚ) ^ i
  | .httpErr _ ra => max ((2 : ℚ) ^ i) ((retryAfterQ ra).getD 0)
  | .ok => 0

/-- Summary of one `send_discord` run: how many POST attempts were made,
the sleeps between them, whether an exception propagated out, and whether
a 2xx response was obtained. -/
structure SendResult where
  attemptsMade : ℕ
  waits : List ℚ
  raised : Bool
  delivered : Bool

/-- The `for attempt in range(4)` loop of `send_discord` (src lines
634-658), with the server's behaviour per attempt given by the oracle `f`.
On success it returns; on `HTTPError` with a retryable code and
`attempt < 3` it sleeps `max(2 ** attempt, float(Retry-After))` and
retries -- the `float()` call raising on a non-numeric header
propagates out of the function; on any other `HTTPError` it logs and
returns; on any other exception it sleeps `2 ** attempt` and retries
while `attempt < 3`, else returns. -/
def sendFrom (f : ℕ → AttemptResult) : ℕ → ℕ → SendResult
  | 0, _ => ⟨0, [], false, false⟩
  | fuel + 1, a =>
    match f a with
    | .ok => ⟨1, [], false, true⟩
    | .httpErr c ra =>
        if retryableCode c && decide (a < 3) then
          match retryAfterQ ra with
          | none => ⟨1, [], true, false⟩
          | some v =>
              let r := sendFrom f fuel (a + 1)
              ⟨r.attemptsMade + 1, max ((2 : ℚ) ^ a) v :: r.waits,
               r.raised, r.delivered⟩
        else ⟨1, [], false, false⟩
    | .netErr =>
        if a < 3 then
          let r := sendFrom f fuel (a + 1)
          ⟨r.attemptsMade + 1, ((2 : ℚ) ^ a) :: r.waits,
           r.raised, r.delivered⟩
        else ⟨1, [], false, false⟩

/-- The endpoint rewriting of `send_discord` (src lines 619-621):
`discordapp.com` → `discord.com`, and a `?wait=true` query when none is
present.  It only changes the URL that is POSTed to, never the control
flow. -/
def normalizeWebhook (w : String) : String :=
  let w := w.replace ("discordapp.com") ("discord.com")
  if (w.splitOn ("?")).length = 1 then w ++ "?wait=true" else w

/-- `send_discord(payload)` (src lines 606-658): `env` is
`DISCORD_WEBHOOK_URL`.  A blank webhook logs and returns before any
attempt; otherwise the retry loop runs with at most 4 attempts. -/
def send_discord (env : String) (f : ℕ → AttemptResult) : SendResult :=
  if pyStrip env = "" then ⟨0, [], false, false⟩
  else sendFrom f 4 0

/-- A sample record used to instantiate the theorems on concrete inputs. -/
def exRec (price : J) (sizes : List (String × J)) (stock : Bool) : Record :=
  ⟨"Alpha SV", "X0001", "Black", "$", price, sizes, stock,
   "https://example.com/alpha-sv/p", "2025-01-01T00:00:00+00:00",
   "x0001::black", none⟩

/-- The parse-failed placeholder record: NaN price sentinel, empty sizes
map, `note` field present. -/
def exRecNaN : Record :=
  ⟨"", "", "", "", J.nanLit, [], false, "https://example.com/x/p",
   "2025-01-01T00:00:00+00:00", "x::na", some ("parse_failed")⟩

/-! ## Round-trip of the snapshot encoding -/

theorem decodeRecord_encodeRecord (r : Record) :
    decodeRecord (encodeRecord r) = some r := by
  rcases r with ⟨t, sk, c, cur, p, sz, st, u, ls, ky, note⟩
  cases note <;> rfl

theorem decodeEntries_encode (s : Snap) :
    decodeEntries (s.map (fun p => (p.1, encodeRecord p.2))) = some s := by
  induction s with
  | nil => rfl
  | cons hd tl ih =>
      simp only [List.map_cons, decodeEntries, decodeRecord_encodeRecord, ih]

theorem decodeSnapshot_encodeSnapshot (s : Snap) :
    decodeSnapshot (encodeSnapshot s) = some s := by
  simp only [decodeSnapshot, encodeSnapshot, decodeEntries_encode]

/-- C1: saving a valid snapshot with `jdump` (all I/O steps succeeding)
and loading the same path with `jload` returns a snapshot equal to the
one saved — including NaN-price and empty-sizes records — and a record
whose price is the NaN sentinel is stored in a form distinct from the
same record with a real zero price. -/
theorem jdump_jload_roundtrip (S : Snap) (path tmp : String) (fs : FS)
    (_hWF : SnapWF S) (htp : tmp ≠ path) :
    decodeSnapshot (jload path
      (jdumpRun ⟨true, true, true⟩ (encodeSnapshot S) path tmp fs).1) =
      some S ∧
    ∀ r : Record, encodeRecord { r with price := J.nanLit } ≠
      encodeRecord { r with price := J.num 0 } := by
  constructor
  · simp [jdumpRun, jload, fsWrite, Ne.symm htp, decodeSnapshot_encodeSnapshot]
  · intro r
    simp [encodeRecord]

/-- Witness for C1 at a concrete snapshot holding the NaN-price,
empty-sizes placeholder record. -/
theorem jdump_jload_roundtrip_witness :
    decodeSnapshot (jload ("snapshot.json")
      (jdumpRun ⟨true, true, true⟩ (encodeSnapshot [("x::na", exRecNaN)])
        "snapshot.json" "tmpfile" (fun _ => none)).1) =
      some [("x::na", exRecNaN)] :=
  (jdump_jload_roundtrip [("x::na", exRecNaN)] "snapshot.json" "tmpfile"
    (fun _ => none) (by decide) (by decide)).1

/-- C4 counterexample: in the execution where the `json.dump`
serialization step fails, the temporary file remains on disk after
`jdump` exits (the `with` block keeps the `delete=False` file and the
exception propagates before the `try/finally` around the rename is
entered), contradicting the claim that the temporary file is removed on
every exit path. -/
theorem jdump_temp_file_leak :
    ((jdumpRun ⟨false, true, true⟩ (J.obj []) "snapshot.json" "tmpfile"
        (fun _ => none)).1) "tmpfile" = some FileContent.bad ∧
    (jdumpRun ⟨false, true, true⟩ (J.obj []) "snapshot.json" "tmpfile"
        (fun _ => none)).2 = true :=
  ⟨rfl, rfl⟩

/-- C4 (amended): when serialization and flush/fsync succeed, `jdump`
writes the document to the temporary file and renames it over the
destination; on both exit paths of the rename step (success and failure)
the temporary file does not remain on disk, and on rename failure the
destination is untouched.  (When serialization or flush fails, the
temporary file remains and the exception propagates, as
`jdump_temp_file_leak` shows.) -/
theorem jdump_rename_cleanup (sc : DumpSteps) (j : J) (path tmp : String)
    (fs : FS) (htp : tmp ≠ path) (hs : sc.serializeOk = true)
    (hf : sc.flushOk = true) :
    (jdumpRun sc j path tmp fs).1 tmp = none ∧
    (sc.renameOk = true →
      (jdumpRun sc j path tmp fs).1 path = some (FileContent.good j) ∧
      (jdumpRun sc j path tmp fs).2 = false) ∧
    (sc.renameOk = false →
      (jdumpRun sc j path tmp fs).1 path = fs path ∧
      (jdumpRun sc j path tmp fs).2 = true) := by
  rcases sc with ⟨so, fo, ro⟩
  simp only at hs hf
  subst hs; subst hf
  cases ro <;> simp [jdumpRun, fsWrite, Ne.symm htp]

/-- Witness for C4's amended theorem on a concrete all-success run. -/
theorem jdump_rename_cleanup_witness :
    (jdumpRun ⟨true, true, true⟩ (J.obj []) "snapshot.json" "tmpfile"
      (fun _ => none)).1 "tmpfile" = none :=
  (jdump_rename_cleanup ⟨true, true, true⟩ (J.obj []) "snapshot.json"
    "tmpfile" (fun _ => none) (by decide) rfl rfl).1

/-- C6: `jload` is a total function — no exception escapes it — and it
returns the empty mapping `{}` when the file is absent and when the
content cannot be read or parsed, and the parsed document otherwise. -/
theorem jload_never_fails (fs : FS) (path : String) :
    (fs path = none → jload path fs = J.obj []) ∧
    (fs path = some FileContent.bad → jload path fs = J.obj []) ∧
    (∀ j, fs path = some (FileContent.good j) → jload path fs = j) := by
  refine ⟨fun h => ?_, fun h => ?_, fun j h => ?_⟩ <;> simp [jload, h]

/-- Witness for C6 at a path that does not exist. -/
theorem jload_never_fails_witness :
    jload ("snapshot.json") (fun _ => none) = J.obj [] :=
  (jload_never_fails (fun _ => none) "snapshot.json").1 rfl

/-- A successful dict lookup means the pair is in the snapshot. -/
theorem snapGet_mem {s : Snap} {k : String} {r : Record}
    (h : snapGet s k = some r) : (k, r) ∈ s := by
  unfold snapGet at h
  rcases hq : s.find? (fun p => p.1 == k) with _ | ⟨k', r'⟩
  · rw [hq] at h; exact absurd h (by simp)
  · rw [hq] at h
    have hp := List.find?_some hq
    have hm := List.mem_of_find?_eq_some hq
    simp only [beq_iff_eq] at hp
    simp only [Option.map_some', Option.some.injEq] at h
    subst hp; subst h
    exact hm

/-- A key is among the snapshot's keys exactly when lookup succeeds. -/
theorem mem_snapKeys_iff {s : Snap} {k : String} :
    k ∈ snapKeys s ↔ ∃ r, snapGet s k = some r := by
  unfold snapKeys snapGet
  rw [List.mem_dedup, List.mem_map]
  constructor
  · rintro ⟨p, hp, rfl⟩
    have hs : (s.find? (fun q => q.1 == p.1)).isSome := by
      rw [List.find?_isSome]
      exact ⟨p, hp, by simp⟩
    rcases Option.isSome_iff_exists.mp hs with ⟨q, hq⟩
    exact ⟨q.2, by rw [hq]; rfl⟩
  · rintro ⟨r, hr⟩
    rcases hq : s.find? (fun p => p.1 == k) with _ | q
    · rw [hq] at hr; exact absurd hr (by simp)
    · have hp := List.find?_some hq
      have hm := List.mem_of_find?_eq_some hq
      simp only [beq_iff_eq] at hp
      exact ⟨q, hm, hp⟩

/-- Membership in the sorted shared-key list. -/
theorem mem_sharedKeys {old new : Snap} {k : String} :
    k ∈ sharedKeys old new ↔ k ∈ snapKeys new ∧ k ∈ snapKeys old := by
  unfold sharedKeys
  rw [(List.perm_insertionSort strLe _).mem_iff, List.mem_filter]
  simp

/-- Membership in the sorted new-only key list. -/
theorem mem_newOnlyKeys {old new : Snap} {k : String} :
    k ∈ newOnlyKeys old new ↔ k ∈ snapKeys new ∧ k ∉ snapKeys old := by
  unfold newOnlyKeys
  rw [(List.perm_insertionSort strLe _).mem_iff, List.mem_filter]
  simp

/-- In an association list with distinct keys, `find?` retrieves the
unique entry of a present key. -/
theorem find?_key_of_nodup {β : Type} {l : List (String × β)}
    (h : (l.map Prod.fst).Nodup) {s : String} {v : β} (hm : (s, v) ∈ l) :
    l.find? (fun p => p.1 == s) = some (s, v) := by
  induction l with
  | nil => cases hm
  | cons hd tl ih =>
      rcases hd with ⟨a, b⟩
      rw [List.map_cons, List.nodup_cons] at h
      rcases List.mem_cons.mp hm with heq | hmem
      · cases heq
        exact List.find?_cons_of_pos _ (by simp)
      · have hne : a ≠ s := by
          intro he; subst he
          exact h.1 (List.mem_map.mpr ⟨(a, v), hmem, rfl⟩)
        rw [List.find?_cons_of_neg _ (by simp [hne])]
        exact ih h.2 hmem

/-- Comparing a quantity value with itself never records an increase
(also in the 0/1 fallback: `v and not v` is always falsy). -/
theorem qtyIncreaseVal_self (v : J) : qtyIncreaseVal v v = none := by
  unfold qtyIncreaseVal
  rcases h : pyInt v with _ | a <;> simp

/-- Diffing a sizes dict against itself yields no increases. -/
theorem increasedSizes_self {l : List (String × J)}
    (h : (l.map Prod.fst).Nodup) : increasedSizes l l = [] := by
  unfold increasedSizes
  rw [List.filterMap_eq_nil_iff]
  rintro ⟨s, v⟩ hm
  have hg : sizesGet l s = v := by
    unfold sizesGet sizesLookup
    rw [find?_key_of_nodup h hm]
    rfl
  rw [hg, qtyIncreaseVal_self]
  rfl

/-- What membership in `new_items` implies. -/
theorem new_items_mem_elim {old new : Snap} {e : String × Record}
    (h : e ∈ (computeDiff old new).new_items) :
    snapGet new e.1 = some e.2 ∧ e.1 ∈ snapKeys new ∧ e.1 ∉ snapKeys old := by
  rcases e with ⟨k, n⟩
  simp only [computeDiff] at h
  rw [List.mem_filterMap] at h
  rcases h with ⟨a, ha, hf⟩
  rcases hg : snapGet new a with _ | n'
  · rw [hg] at hf; exact absurd hf (by simp)
  · rw [hg] at hf
    simp only [Option.map_some', Option.some.injEq, Prod.mk.injEq] at hf
    rcases hf with ⟨rfl, rfl⟩
    have hk := mem_newOnlyKeys.mp ha
    exact ⟨hg, hk.1, hk.2⟩

/-- What membership in `restocks` implies. -/
theorem restocks_mem_elim {old new : Snap} {e : String × Record × Record}
    (h : e ∈ (computeDiff old new).restocks) :
    snapGet old e.1 = some e.2.1 ∧ snapGet new e.1 = some e.2.2 ∧
      (!e.2.1.in_stock && e.2.2.in_stock) = true := by
  rcases e with ⟨k, o, n⟩
  simp only [computeDiff] at h
  rw [List.mem_filterMap] at h
  rcases h with ⟨a, _, hf⟩
  rcases ho : snapGet old a with _ | o'
  · rw [ho] at hf; exact absurd hf (by simp)
  · rcases hn : snapGet new a with _ | n'
    · rw [ho, hn] at hf; exact absurd hf (by simp)
    · rw [ho, hn] at hf
      simp only at hf
      split at hf
      · simp only [Option.some.injEq, Prod.mk.injEq] at hf
        rcases hf with ⟨rfl, rfl, rfl⟩
        refine ⟨ho, hn, by assumption⟩
      · exact absurd hf (by simp)

/-- What membership in `price_changes` implies. -/
theorem price_changes_mem_elim {old new : Snap} {e : String × Record × Record}
    (h : e ∈ (computeDiff old new).price_changes) :
    snapGet old e.1 = some e.2.1 ∧ snapGet new e.1 = some e.2.2 ∧
      priceChangedB e.2.1.price e.2.2.price = true := by
  rcases e with ⟨k, o, n⟩
  simp only [computeDiff] at h
  rw [List.mem_filterMap] at h
  rcases h with ⟨a, _, hf⟩
  rcases ho : snapGet old a with _ | o'
  · rw [ho] at hf; exact absurd hf (by simp)
  · rcases hn : snapGet new a with _ | n'
    · rw [ho, hn] at hf; exact absurd hf (by simp)
    · rw [ho, hn] at hf
      simp only at hf
      split at hf
      · simp only [Option.some.injEq, Prod.mk.injEq] at hf
        rcases hf with ⟨rfl, rfl, rfl⟩
        refine ⟨ho, hn, by assumption⟩
      · exact absurd hf (by simp)

/-- What membership in `stock_increases` implies. -/
theorem stock_increases_mem_elim {old new : Snap}
    {e : String × Record × Record × List (String × ℤ)}
    (h : e ∈ (computeDiff old new).stock_increases) :
    snapGet old e.1 = some e.2.1 ∧ snapGet new e.1 = some e.2.2.1 ∧
      e.2.2.2 = increasedSizes e.2.1.sizes e.2.2.1.sizes ∧
      e.2.2.2 ≠ [] := by
  rcases e with ⟨k, o, n, inc⟩
  simp only [computeDiff] at h
  rw [List.mem_filterMap] at h
  rcases h with ⟨a, _, hf⟩
  rcases ho : snapGet old a with _ | o'
  · rw [ho] at hf; exact absurd hf (by simp)
  · rcases hn : snapGet new a with _ | n'
    · rw [ho, hn] at hf; exact absurd hf (by simp)
    · rw [ho, hn] at hf
      simp only at hf
      split at hf
      · exact absurd hf (by simp)
      · rename_i hni
        simp only [Option.some.injEq, Prod.mk.injEq] at hf
        rcases hf with ⟨rfl, rfl, rfl, rfl⟩
        refine ⟨ho, hn, rfl, ?_⟩
        rw [Ne, ← List.isEmpty_iff]
        exact hni

/-- Characterization of a shared key's `restocks` entry. -/
theorem restocks_mem_iff {old new : Snap} {k : String} {o n : Record}
    (ho : snapGet old k = some o) (hn : snapGet new k = some n) :
    (k, o, n) ∈ (computeDiff old new).restocks ↔
      (!o.in_stock && n.in_stock) = true := by
  constructor
  · intro h; exact (restocks_mem_elim h).2.2
  · intro hc
    simp only [computeDiff]
    rw [List.mem_filterMap]
    refine ⟨k, mem_sharedKeys.mpr
      ⟨mem_snapKeys_iff.mpr ⟨n, hn⟩, mem_snapKeys_iff.mpr ⟨o, ho⟩⟩, ?_⟩
    rw [ho, hn]
    simp [hc]

/-- Characterization of a shared key's `price_changes` entry. -/
theorem price_changes_mem_iff {old new : Snap} {k : String} {o n : Record}
    (ho : snapGet old k = some o) (hn : snapGet new k = some n) :
    (k, o, n) ∈ (computeDiff old new).price_changes ↔
      priceChangedB o.price n.price = true := by
  constructor
  · intro h; exact (price_changes_mem_elim h).2.2
  · intro hc
    simp only [computeDiff]
    rw [List.mem_filterMap]
    refine ⟨k, mem_sharedKeys.mpr
      ⟨mem_snapKeys_iff.mpr ⟨n, hn⟩, mem_snapKeys_iff.mpr ⟨o, ho⟩⟩, ?_⟩
    rw [ho, hn]
    simp [hc]

/-- Characterization of a shared key's `stock_increases` entry. -/
theorem stock_increases_mem_iff {old new : Snap} {k : String} {o n : Record}
    {inc : List (String × ℤ)}
    (ho : snapGet old k = some o) (hn : snapGet new k = some n) :
    (k, o, n, inc) ∈ (computeDiff old new).stock_increases ↔
      (inc = increasedSizes o.sizes n.sizes ∧ inc ≠ []) := by
  constructor
  · intro h
    have he := stock_increases_mem_elim h
    exact ⟨he.2.2.1, he.2.2.2⟩
  · rintro ⟨rfl, hne⟩
    simp only [computeDiff]
    rw [List.mem_filterMap]
    refine ⟨k, mem_sharedKeys.mpr
      ⟨mem_snapKeys_iff.mpr ⟨n, hn⟩, mem_snapKeys_iff.mpr ⟨o, ho⟩⟩, ?_⟩
    rw [ho, hn]
    simp only
    rw [if_neg (by rw [List.isEmpty_iff]; exact hne)]

/-- Diffing a snapshot against itself yields the empty change set. -/
theorem computeDiff_self_empty (S : Snap) (h : SnapWF S) :
    computeDiff S S = ⟨[], [], [], []⟩ := by
  have h1 : (computeDiff S S).new_items = [] := by
    simp only [computeDiff]
    have hk : (snapKeys S).filter (fun k => decide (k ∉ snapKeys S)) = [] := by
      rw [List.filter_eq_nil_iff]
      intro a ha
      simp [ha]
    unfold newOnlyKeys
    rw [hk]
    rfl
  have h2 : (computeDiff S S).price_changes = [] := by
    simp only [computeDiff]
    rw [List.filterMap_eq_nil_iff]
    intro k _
    rcases hg : snapGet S k with _ | o
    · rfl
    · have h0 : decide ((1 : ℚ) / 100 ≤ |numVal o.price - numVal o.price|) =
          false := by
        rw [decide_eq_false_iff_not, sub_self, abs_zero]
        norm_num
      simp [priceChangedB, h0]
  have h3 : (computeDiff S S).restocks = [] := by
    simp only [computeDiff]
    rw [List.filterMap_eq_nil_iff]
    intro k _
    rcases hg : snapGet S k with _ | o
    · rfl
    · simp
  have h4 : (computeDiff S S).stock_increases = [] := by
    simp only [computeDiff]
    rw [List.filterMap_eq_nil_iff]
    intro k hk
    rcases hg : snapGet S k with _ | o
    · rfl
    · have hnod := h.2 (k, o) (snapGet_mem hg)
      simp [increasedSizes_self hnod]
  rcases hd : computeDiff S S with ⟨a, b, c, d⟩
  rw [hd] at h1 h2 h3 h4
  simp only at h1 h2 h3 h4
  subst h1; subst h2; subst h3; subst h4
  rfl

/-- Full case analysis of the per-size decision: the numeric strict
comparison when both `int()` conversions succeed, and the 0/1
truthiness fallback when either raises. -/
theorem qtyIncreaseVal_eq_some_iff (oq nq : J) (v : ℤ) :
    qtyIncreaseVal oq nq = some v ↔
      ((∃ a b, pyInt nq = some a ∧ pyInt oq = some b ∧ b < a ∧ v = a) ∨
       ((pyInt nq = none ∨ pyInt oq = none) ∧ pyTruthy nq = true ∧
         pyTruthy oq = false ∧ v = 1)) := by
  unfold qtyIncreaseVal
  rcases ha : pyInt nq with _ | a <;> rcases hb : pyInt oq with _ | b <;>
    rcases hT : pyTruthy nq <;> rcases hU : pyTruthy oq <;>
    simp [hT, hU, eq_comm]

/-- Membership in the `increased` dict in terms of the new sizes lookup
and the per-size decision. -/
theorem increasedSizes_mem_iff {osz nsz : List (String × J)}
    (hnod : (nsz.map Prod.fst).Nodup) (s : String) (v : ℤ) :
    (s, v) ∈ increasedSizes osz nsz ↔
      ∃ nq, sizesLookup nsz s = some nq ∧
        qtyIncreaseVal (sizesGet osz s) nq = some v := by
  unfold increasedSizes
  rw [List.mem_filterMap]
  constructor
  · rintro ⟨⟨s', nq⟩, hmem, hf⟩
    rcases hv : qtyIncreaseVal (sizesGet osz s') nq with _ | v'
    · rw [hv] at hf; exact absurd hf (by simp)
    · rw [hv] at hf
      simp only [Option.map_some', Option.some.injEq, Prod.mk.injEq] at hf
      rcases hf with ⟨rfl, rfl⟩
      refine ⟨nq, ?_, hv⟩
      unfold sizesLookup
      rw [find?_key_of_nodup hnod hmem]
      rfl
  · rintro ⟨nq, hl, hv⟩
    have hmem : (s, nq) ∈ nsz := by
      unfold sizesLookup at hl
      rcases hq : nsz.find? (fun p => p.1 == s) with _ | q
      · rw [hq] at hl; exact absurd hl (by simp)
      · rw [hq] at hl
        simp only [Option.map_some', Option.some.injEq] at hl
        have hp := List.find?_some hq
        have hm := List.mem_of_find?_eq_some hq
        simp only [beq_iff_eq] at hp
        rcases q with ⟨s', v'⟩
        simp only at hp hl
        subst hp; subst hl
        exact hm
    refine ⟨(s, nq), hmem, ?_⟩
    rw [hv]
    rfl

/-- C3: for every snapshot `S` (a mapping from key to record),
`compute_diff(S, S)` returns a change set whose four lists `new_items`,
`price_changes`, `restocks` and `stock_increases` are all empty. -/
theorem compute_diff_idempotent (S : Snap) (h : SnapWF S) :
    computeDiff S S = ⟨[], [], [], []⟩ :=
  computeDiff_self_empty S h

/-- Witness for C3 on a concrete one-record snapshot. -/
theorem compute_diff_idempotent_witness :
    computeDiff [("x0001::black", exRec (J.num 100) [("M", J.num 1)] true)]
        [("x0001::black", exRec (J.num 100) [("M", J.num 1)] true)] =
      ⟨[], [], [], []⟩ :=
  compute_diff_idempotent
    [("x0001::black", exRec (J.num 100) [("M", J.num 1)] true)] (by decide)

/-- C7: for every pair of snapshots and shared key, `compute_diff`
places the key in `restocks` if and only if the old record's `in_stock`
is false and the new record's is true; a variant going
in-stock→out-of-stock never appears in `restocks`. -/
theorem restock_directionality (old new : Snap) (k : String) (o n : Record)
    (ho : snapGet old k = some o) (hn : snapGet new k = some n) :
    ((k, o, n) ∈ (computeDiff old new).restocks ↔
      (o.in_stock = false ∧ n.in_stock = true)) ∧
    (o.in_stock = true → n.in_stock = false →
      ∀ e ∈ (computeDiff old new).restocks, e.1 ≠ k) := by
  constructor
  · rw [restocks_mem_iff ho hn]
    simp [Bool.and_eq_true, Bool.not_eq_true']
  · intro h1 h2 e he
    rcases e with ⟨k', o', n'⟩
    intro hek
    simp only at hek
    subst hek
    have hel := restocks_mem_elim he
    rcases hel with ⟨e1, e2, e3⟩
    simp only at e1 e2 e3
    rw [ho] at e1
    rw [hn] at e2
    simp only [Option.some.injEq] at e1 e2
    subst e1; subst e2
    rw [h1, h2] at e3
    exact absurd e3 (by simp)

/-- Witness for C7: a concrete out-of-stock→in-stock transition is
reported. -/
theorem restock_directionality_witness :
    ("x0001::black", exRec (J.num 100) [] false, exRec (J.num 100) [("M", J.num 2)] true) ∈
      (computeDiff [("x0001::black", exRec (J.num 100) [] false)]
        [("x0001::black", exRec (J.num 100) [("M", J.num 2)] true)]).restocks :=
  ((restock_directionality
      [("x0001::black", exRec (J.num 100) [] false)]
      [("x0001::black", exRec (J.num 100) [("M", J.num 2)] true)]
      "x0001::black" (exRec (J.num 100) [] false)
      (exRec (J.num 100) [("M", J.num 2)] true) rfl rfl).1).mpr ⟨rfl, rfl⟩

/-- C2: for records sharing a key whose old and new prices are plain
numbers, `compute_diff` reports a price change exactly when the
absolute difference is at least `0.01`; in particular a difference of
exactly `0.01` is reported and one of `0.009` is not. -/
theorem price_change_threshold (old new : Snap) (k : String) (o n : Record)
    (ho : snapGet old k = some o) (hn : snapGet new k = some n)
    (p q : ℚ) (hp : o.price = J.num p) (hq : n.price = J.num q) :
    ((k, o, n) ∈ (computeDiff old new).price_changes ↔ 1 / 100 ≤ |p - q|) ∧
    (|p - q| = 1 / 100 → (k, o, n) ∈ (computeDiff old new).price_changes) ∧
    (|p - q| = 9 / 1000 → (k, o, n) ∉ (computeDiff old new).price_changes) := by
  have hiff : (k, o, n) ∈ (computeDiff old new).price_changes ↔
      1 / 100 ≤ |p - q| := by
    rw [price_changes_mem_iff ho hn, hp, hq]
    simp [priceChangedB, isPyNumber, isPyNan, numVal]
  refine ⟨hiff, fun he => hiff.mpr (by rw [he]), fun he => ?_⟩
  rw [hiff, he]
  norm_num

/-- Witness for C2 at a price drop of exactly one cent. -/
theorem price_change_threshold_witness :
    ("x0001::black", exRec (J.num 100) [] true,
        exRec (J.num (9999 / 100)) [] true) ∈
      (computeDiff [("x0001::black", exRec (J.num 100) [] true)]
        [("x0001::black", exRec (J.num (9999 / 100)) [] true)]).price_changes :=
  (price_change_threshold
      [("x0001::black", exRec (J.num 100) [] true)]
      [("x0001::black", exRec (J.num (9999 / 100)) [] true)]
      "x0001::black" (exRec (J.num 100) [] true)
      (exRec (J.num (9999 / 100)) [] true) rfl rfl 100 (9999 / 100)
      rfl rfl).2.1
    (by rw [show (100 : ℚ) - 9999 / 100 = 1 / 100 from by norm_num,
            abs_of_pos (by norm_num : (0 : ℚ) < 1 / 100)])

/-- C10: a key present only in the old snapshot is referenced by no
entry of any category; every `new_items` key is in the new snapshot
only, and every other entry's key is shared by both snapshots. -/
theorem no_disappeared_reports (old new : Snap) (k : String)
    (_h1 : k ∈ snapKeys old) (h2 : k ∉ snapKeys new) :
    ((computeDiff old new).new_items.filter (fun e => e.1 == k) = []) ∧
    ((computeDiff old new).price_changes.filter (fun e => e.1 == k) = []) ∧
    ((computeDiff old new).restocks.filter (fun e => e.1 == k) = []) ∧
    ((computeDiff old new).stock_increases.filter (fun e => e.1 == k) = []) ∧
    (∀ e ∈ (computeDiff old new).new_items,
      e.1 ∈ snapKeys new ∧ e.1 ∉ snapKeys old) ∧
    (∀ e ∈ (computeDiff old new).price_changes,
      e.1 ∈ snapKeys new ∧ e.1 ∈ snapKeys old) ∧
    (∀ e ∈ (computeDiff old new).restocks,
      e.1 ∈ snapKeys new ∧ e.1 ∈ snapKeys old) ∧
    (∀ e ∈ (computeDiff old new).stock_increases,
      e.1 ∈ snapKeys new ∧ e.1 ∈ snapKeys old) := by
  have hni : ∀ e ∈ (computeDiff old new).new_items,
      e.1 ∈ snapKeys new ∧ e.1 ∉ snapKeys old := by
    intro e he
    exact (new_items_mem_elim he).2
  have hpc : ∀ e ∈ (computeDiff old new).price_changes,
      e.1 ∈ snapKeys new ∧ e.1 ∈ snapKeys old := by
    intro e he
    have hel := price_changes_mem_elim he
    exact ⟨mem_snapKeys_iff.mpr ⟨e.2.2, hel.2.1⟩,
           mem_snapKeys_iff.mpr ⟨e.2.1, hel.1⟩⟩
  have hrs : ∀ e ∈ (computeDiff old new).restocks,
      e.1 ∈ snapKeys new ∧ e.1 ∈ snapKeys old := by
    intro e he
    have hel := restocks_mem_elim he
    exact ⟨mem_snapKeys_iff.mpr ⟨e.2.2, hel.2.1⟩,
           mem_snapKeys_iff.mpr ⟨e.2.1, hel.1⟩⟩
  have hsi : ∀ e ∈ (computeDiff old new).stock_increases,
      e.1 ∈ snapKeys new ∧ e.1 ∈ snapKeys old := by
    intro e he
    have hel := stock_increases_mem_elim he
    exact ⟨mem_snapKeys_iff.mpr ⟨e.2.2.1, hel.2.1⟩,
           mem_snapKeys_iff.mpr ⟨e.2.1, hel.1⟩⟩
  refine ⟨?_, ?_, ?_, ?_, hni, hpc, hrs, hsi⟩ <;>
    rw [List.filter_eq_nil_iff]
  · intro e he
    simp only [beq_iff_eq]
    intro hek
    exact h2 (hek ▸ (hni e he).1)
  · intro e he
    simp only [beq_iff_eq]
    intro hek
    exact h2 (hek ▸ (hpc e he).1)
  · intro e he
    simp only [beq_iff_eq]
    intro hek
    exact h2 (hek ▸ (hrs e he).1)
  · intro e he
    simp only [beq_iff_eq]
    intro hek
    exact h2 (hek ▸ (hsi e he).1)

/-- Witness for C10 with a concrete disappeared variant. -/
theorem no_disappeared_reports_witness :
    (computeDiff [("x0001::black", exRec (J.num 100) [] true)]
      []).new_items.filter (fun e => e.1 == "x0001::black") = [] :=
  (no_disappeared_reports [("x0001::black", exRec (J.num 100) [] true)] []
    "x0001::black" (by decide) (by decide)).1

/-- C5: the stock-increase entry of a shared key carries exactly the
sizes of the new record whose quantity is strictly greater than the old
quantity (absent sizes counting as 0) when both quantities convert with
`int()`, with the 0/1 truthiness fallback when a conversion raises; the
spec's example `{M:0, L:2}` vs `{M:1, L:2, XL:1}` yields
`{M:1, XL:1}`. -/
theorem stock_increase_granularity (old new : Snap) (k : String)
    (o n : Record) (ho : snapGet old k = some o) (hn : snapGet new k = some n)
    (hnod : (n.sizes.map Prod.fst).Nodup) :
    (∀ inc : List (String × ℤ),
      ((k, o, n, inc) ∈ (computeDiff old new).stock_increases ↔
        (inc = increasedSizes o.sizes n.sizes ∧ inc ≠ []))) ∧
    (∀ s v, (s, v) ∈ increasedSizes o.sizes n.sizes ↔
      (∃ nq, sizesLookup n.sizes s = some nq ∧
        ((∃ a b, pyInt nq = some a ∧ pyInt (sizesGet o.sizes s) = some b ∧
            b < a ∧ v = a) ∨
         ((pyInt nq = none ∨ pyInt (sizesGet o.sizes s) = none) ∧
           pyTruthy nq = true ∧ pyTruthy (sizesGet o.sizes s) = false ∧
           v = 1)))) ∧
    increasedSizes [("M", J.num 0), ("L", J.num 2)]
        [("M", J.num 1), ("L", J.num 2), ("XL", J.num 1)] =
      [("M", 1), ("XL", 1)] := by
  refine ⟨fun inc => stock_increases_mem_iff ho hn, fun s v => ?_, rfl⟩
  rw [increasedSizes_mem_iff hnod]
  constructor
  · rintro ⟨nq, hl, hv⟩
    exact ⟨nq, hl, (qtyIncreaseVal_eq_some_iff _ _ _).mp hv⟩
  · rintro ⟨nq, hl, hc⟩
    exact ⟨nq, hl, (qtyIncreaseVal_eq_some_iff _ _ _).mpr hc⟩

/-- Witness for C5: the example increase map is reported for a concrete
snapshot pair. -/
theorem stock_increase_granularity_witness :
    ("x0001::black",
        exRec (J.num 100) [("M", J.num 0), ("L", J.num 2)] true,
        exRec (J.num 100) [("M", J.num 1), ("L", J.num 2), ("XL", J.num 1)] true,
        [("M", (1 : ℤ)), ("XL", 1)]) ∈
      (computeDiff
        [("x0001::black", exRec (J.num 100) [("M", J.num 0), ("L", J.num 2)] true)]
        [("x0001::black", exRec (J.num 100)
            [("M", J.num 1), ("L", J.num 2), ("XL", J.num 1)] true)]).stock_increases :=
  ((stock_increase_granularity
      [("x0001::black", exRec (J.num 100) [("M", J.num 0), ("L", J.num 2)] true)]
      [("x0001::black", exRec (J.num 100)
          [("M", J.num 1), ("L", J.num 2), ("XL", J.num 1)] true)]
      "x0001::black"
      (exRec (J.num 100) [("M", J.num 0), ("L", J.num 2)] true)
      (exRec (J.num 100) [("M", J.num 1), ("L", J.num 2), ("XL", J.num 1)] true)
      rfl rfl (by decide)).1 [("M", 1), ("XL", 1)]).mpr ⟨rfl, by decide⟩

/-- Appending strings appends their character data. -/
theorem string_data_append (a b : String) :
    (a ++ b).data = a.data ++ b.data := rfl

/-- A joined non-empty line list starts with its first line. -/
theorem joinLines_cons_data (hd : String) (t : List String) :
    ∃ r, (joinLines (hd :: t)).data = hd.data ++ r := by
  cases t with
  | nil => exact ⟨[], (List.append_nil _).symm⟩
  | cons b bt =>
      refine ⟨("\n" ++ joinLines (b :: bt)).data, ?_⟩
      show (hd ++ "\n" ++ joinLines (b :: bt)).data = _
      simp [string_data_append]

/-- A section of the message is empty only if its category is. -/
theorem section_head_eq_nil {α : Type} {c : List α} {hdr : String}
    {blk : List String} (h : (if c.isEmpty then [] else hdr :: blk) = []) :
    c = [] := by
  rcases hni : c.isEmpty with _ | _
  · rw [hni] at h
    simp at h
  · exact List.isEmpty_iff.mp hni

/-- The accumulated lines are empty exactly for the empty change set. -/
theorem linesOf_eq_nil_iff (d : ChangeSet) :
    linesOf d = [] ↔ d = ⟨[], [], [], []⟩ := by
  rcases d with ⟨ni, pc, rs, si⟩
  constructor
  · intro h
    unfold linesOf at h
    simp only [List.append_eq_nil] at h
    rcases h with ⟨⟨⟨h1, h2⟩, h3⟩, h4⟩
    rw [section_head_eq_nil h1, section_head_eq_nil h2,
        section_head_eq_nil h3, section_head_eq_nil h4]
  · intro h
    have e1 : ni = [] := congrArg ChangeSet.new_items h
    have e2 : pc = [] := congrArg ChangeSet.price_changes h
    have e3 : rs = [] := congrArg ChangeSet.restocks h
    have e4 : si = [] := congrArg ChangeSet.stock_increases h
    subst e1; subst e2; subst e3; subst e4
    rfl

/-- A non-empty line list starts with one of the four section headers,
all of which begin with an asterisk. -/
theorem linesOf_head_star (d : ChangeSet) (h : linesOf d ≠ []) :
    ∃ hd t, linesOf d = hd :: t ∧ ∃ cs, hd.data = '*' :: cs := by
  rcases d with ⟨ni, pc, rs, si⟩
  unfold linesOf at h ⊢
  cases hni : ni.isEmpty <;> cases hpc : pc.isEmpty <;>
    cases hrs : rs.isEmpty <;> cases hsi : si.isEmpty <;>
    simp only [hni, hpc, hrs, hsi, Bool.false_eq_true, if_false, if_true,
      List.nil_append, List.cons_append, List.append_nil] at h ⊢ <;>
    first
      | exact absurd rfl h
      | exact ⟨_, _, rfl, _, rfl⟩

/-- C9 (amended): the formatted message is the single explicit
"no changes" text exactly when the change set has no entries in any
category — which happens for any pair of identical well-formed
snapshots, empty or not (not only when both are identical and
empty). -/
theorem format_no_changes_fallback :
    (∀ d : ChangeSet,
      (format_discord_message d).description = "本次扫描未发现变化。" ↔
        d = ⟨[], [], [], []⟩) ∧
    (∀ S : Snap, SnapWF S →
      (format_discord_message (computeDiff S S)).description =
        "本次扫描未发现变化。") := by
  have hmain : ∀ d : ChangeSet,
      (format_discord_message d).description = "本次扫描未发现变化。" ↔
        d = ⟨[], [], [], []⟩ := by
    intro d
    constructor
    · intro hd
      by_contra hne
      have hl : linesOf d ≠ [] := fun hn => hne ((linesOf_eq_nil_iff d).mp hn)
      rcases linesOf_head_star d hl with ⟨h0, t, heq, cs, hcs⟩
      have hdesc : (format_discord_message d).description =
          String.mk ((joinLines (h0 :: t)).data.take 4000) := by
        simp only [format_discord_message]
        rw [heq, if_neg (by simp)]
      rw [hdesc] at hd
      rcases joinLines_cons_data h0 t with ⟨r, hr⟩
      rw [hr, hcs] at hd
      have hd2 : ('*' :: (cs ++ r)).take 4000 =
          ("本次扫描未发现变化。" : String).data := congrArg String.data hd
      rw [show (4000 : ℕ) = 3999 + 1 from rfl, List.take_succ_cons] at hd2
      have hrhs : ("本次扫描未发现变化。" : String).data =
          '本' :: ("次扫描未发现变化。" : String).data := rfl
      rw [hrhs] at hd2
      injection hd2 with hc _
      exact absurd hc (by decide)
    · rintro rfl
      rfl
  exact ⟨hmain, fun S hS => by rw [computeDiff_self_empty S hS]; rfl⟩

/-- C9 counterexample: a non-empty snapshot diffed against itself
produces the "no changes" fallback message, so the fallback does not
appear only when both snapshots are identical and empty. -/
theorem format_fallback_for_nonempty_identical :
    (format_discord_message (computeDiff
        [("x0001::black", exRec (J.num 100) [("M", J.num 1)] true)]
        [("x0001::black", exRec (J.num 100) [("M", J.num 1)] true)])).description =
      "本次扫描未发现变化。" ∧
    ([("x0001::black", exRec (J.num 100) [("M", J.num 1)] true)] : Snap) ≠ [] := by
  constructor
  · rw [computeDiff_self_empty _ (by decide)]
    rfl
  · simp

/-- Witness for C9's amended theorem on a concrete snapshot. -/
theorem format_no_changes_fallback_witness :
    (format_discord_message
      (computeDiff [("x::na", exRecNaN)] [("x::na", exRecNaN)])).description =
      "本次扫描未发现变化。" :=
  format_no_changes_fallback.2 [("x::na", exRecNaN)] (by decide)

/-- The retry loop makes at most `fuel` attempts. -/
theorem sendFrom_attempts_le (f : ℕ → AttemptResult) :
    ∀ fuel a, (sendFrom f fuel a).attemptsMade ≤ fuel := by
  intro fuel
  induction fuel with
  | zero => intro a; simp [sendFrom]
  | succ fu ih =>
      intro a
      rcases hf : f a with _ | ⟨c, ra⟩ | _
      · simp [sendFrom, hf]
      · simp only [sendFrom, hf]
        split
        · rcases hra : retryAfterQ ra with _ | v
          · simp
          · simp only
            have := ih (a + 1)
            omega
        · simp
      · simp only [sendFrom, hf]
        split
        · simp only
          have := ih (a + 1)
          omega
        · simp

/-- When every `Retry-After` header in range parses, no exception
propagates out of the loop. -/
theorem sendFrom_raised_false (f : ℕ → AttemptResult) :
    ∀ fuel a, (∀ i, a ≤ i → i < a + fuel → RAok (f i) = true) →
      (sendFrom f fuel a).raised = false := by
  intro fuel
  induction fuel with
  | zero => intro a _; simp [sendFrom]
  | succ fu ih =>
      intro a h
      rcases hf : f a with _ | ⟨c, ra⟩ | _
      · simp [sendFrom, hf]
      · rw [sendFrom, hf]
        simp only
        split
        · rename_i hcond
          rcases hra : retryAfterQ ra with _ | v
          · have hok := h a (le_refl a) (by omega)
            rw [hf] at hok
            simp only [RAok] at hok
            rw [Bool.and_eq_true] at hcond
            rw [hcond.1, hra] at hok
            simp at hok
          · simp only
            exact ih (a + 1) (fun i h1 h2 => h i (by omega) (by omega))
        · simp
      · rw [sendFrom, hf]
        simp only
        split
        · simp only
          exact ih (a + 1) (fun i h1 h2 => h i (by omega) (by omega))
        · simp

/-- A further attempt happens only after a retryable outcome
(HTTP 429/403/502/503 or a network-level failure). -/
theorem sendFrom_retry_retryable (f : ℕ → AttemptResult) :
    ∀ fuel a j, j + 1 < (sendFrom f fuel a).attemptsMade →
      isRetryable (f (a + j)) = true := by
  intro fuel
  induction fuel with
  | zero => intro a j hj; simp [sendFrom] at hj
  | succ fu ih =>
      intro a j hj
      rcases hf : f a with _ | ⟨c, ra⟩ | _
      · rw [sendFrom, hf] at hj
        simp at hj
      · rw [sendFrom, hf] at hj
        simp only at hj
        split at hj
        · rcases hra : retryAfterQ ra with _ | v <;> rw [hra] at hj <;>
            simp only at hj
          · exact absurd hj (by omega)
          · rcases j with _ | j'
            · rw [Nat.add_zero, hf]
              simp only [isRetryable]
              rename_i hcond
              first
                | exact hcond.1
                | (rw [Bool.and_eq_true] at hcond; exact hcond.1)
            · have hlt : j' + 1 < (sendFrom f fu (a + 1)).attemptsMade := by
                omega
              have hr := ih (a + 1) j' hlt
              rw [show a + (j' + 1) = a + 1 + j' from by omega]
              exact hr
        · simp only at hj
          omega
      · rw [sendFrom, hf] at hj
        simp only at hj
        split at hj
        · simp only at hj
          rcases j with _ | j'
          · rw [Nat.add_zero, hf]
            rfl
          · have hlt : j' + 1 < (sendFrom f fu (a + 1)).attemptsMade := by
              omega
            have hr := ih (a + 1) j' hlt
            rw [show a + (j' + 1) = a + 1 + j' from by omega]
            exact hr
        · simp only at hj
          omega

/-- Each sleep is the larger of the exponential backoff and the parsed
`Retry-After` value (network failures use the plain backoff). -/
theorem sendFrom_waits (f : ℕ → AttemptResult) :
    ∀ fuel a j, j < (sendFrom f fuel a).waits.length →
      (sendFrom f fuel a).waits.get? j =
        some (expectedWait (a + j) (f (a + j))) := by
  intro fuel
  induction fuel with
  | zero => intro a j hj; simp [sendFrom] at hj
  | succ fu ih =>
      intro a j hj
      rcases hf : f a with _ | ⟨c, ra⟩ | _
      · rw [sendFrom, hf] at hj
        simp at hj
      · rw [sendFrom, hf] at hj ⊢
        simp only at hj ⊢
        by_cases hcond : (retryableCode c && decide (a < 3)) = true
        · rw [if_pos hcond] at hj ⊢
          rcases hra : retryAfterQ ra with _ | v
          · rw [hra] at hj
            simp at hj
          · rw [hra] at hj
            simp only at hj ⊢
            rcases j with _ | j'
            · simp only [List.get?]
              rw [Nat.add_zero, hf]
              simp only [expectedWait]
              rw [hra]
              rfl
            · simp only [List.get?]
              have hj' : j' < (sendFrom f fu (a + 1)).waits.length := by
                simpa using hj
              rw [show a + (j' + 1) = a + 1 + j' from by omega]
              exact ih (a + 1) j' hj'
        · rw [if_neg hcond] at hj
          simp at hj
      · rw [sendFrom, hf] at hj ⊢
        simp only at hj ⊢
        by_cases hcond : a < 3
        · rw [if_pos hcond] at hj ⊢
          simp only at hj ⊢
          rcases j with _ | j'
          · simp only [List.get?]
            rw [Nat.add_zero, hf]
            rfl
          · simp only [List.get?]
            have hj' : j' < (sendFrom f fu (a + 1)).waits.length := by
              simpa using hj
            rw [show a + (j' + 1) = a + 1 + j' from by omega]
            exact ih (a + 1) j' hj'
        · rw [if_neg hcond] at hj
          simp at hj

/-- C8 (amended): `send_discord` makes at most 4 POST attempts, a blank
webhook returns before any attempt, it retries only on HTTP
429/403/502/503 and network-level failures, sleeping the larger of the
exponential backoff and the server's `Retry-After`, and — provided every
`Retry-After` header sent on a *retryable* response parses as a number —
it never raises; in particular any non-retryable HTTP error (whatever its
`Retry-After` header holds) and a blank webhook log and return without
retrying and without raising.  (With an unparseable `Retry-After` on a
retryable response the `float()` call raises, see
`send_discord_retry_after_raises`.) -/
theorem send_discord_policy (env : String) (f : ℕ → AttemptResult)
    (h : ∀ i, i < 4 → RAok (f i) = true) :
    (send_discord env f).attemptsMade ≤ 4 ∧
    (send_discord env f).raised = false ∧
    (pyStrip env = "" → (send_discord env f).attemptsMade = 0) ∧
    (∀ j, j + 1 < (send_discord env f).attemptsMade →
      isRetryable (f j) = true) ∧
    (∀ j, j < (send_discord env f).waits.length →
      (send_discord env f).waits.get? j = some (expectedWait j (f j))) := by
  unfold send_discord
  by_cases he : pyStrip env = ""
  · rw [if_pos he]
    refine ⟨by simp, rfl, fun _ => rfl, fun j hj => ?_, fun j hj => ?_⟩
    · simp at hj
    · simp at hj
  · rw [if_neg he]
    refine ⟨sendFrom_attempts_le f 4 0, ?_, fun hc => absurd hc he,
            fun j hj => ?_, fun j hj => ?_⟩
    · exact sendFrom_raised_false f 4 0 (fun i _ h2 => h i (by omega))
    · have := sendFrom_retry_retryable f 4 0 j hj
      simpa using this
    · have := sendFrom_waits f 4 0 j hj
      simpa using this

/-- C8 counterexample: on a retryable 429 response whose `Retry-After`
header is not numeric, `float()` raises inside the handler and the
exception propagates out of `send_discord`, so the function does not
"never raise". -/
theorem send_discord_retry_after_raises :
    (send_discord ("https://discord.com/api/webhooks/1/x")
      (fun _ => AttemptResult.httpErr 429 (some ("tomorrow")))).raised = true :=
  rfl

/-- Witness for C8's amended theorem: a non-retryable 404 response whose
`Retry-After` header would not parse is still handled without raising,
since the code never reaches the `float()` call for it. -/
theorem send_discord_policy_witness :
    (send_discord ("https://discord.com/api/webhooks/1/y")
      (fun _ => AttemptResult.httpErr 404 (some ("tomorrow")))).raised =
      false :=
  (send_discord_policy ("https://discord.com/api/webhooks/1/y")
    (fun _ => AttemptResult.httpErr 404 (some ("tomorrow")))
    (by decide)).2.1
